import Mathlib

/-!
Verification development for the d9vk translation layer.

The definitions below are shallow embeddings of functions from the
repository sources:

* src/dxvk/dxvk_memory.cpp   — device-memory chunk sub-allocator
* src/dxvk/dxvk_image.h      — image view-format compatibility
* src/d3d11/d3d11_context_imm.cpp — immediate context: Map/MapBuffer,
  WaitForResource, Flush, FlushImplicit
* src/d3d11/d3d11_device.cpp — render-target / depth-stencil view creation
* src/d3d9/d3d9_device.cpp   — render states, render targets, multisample
  state, FlushImplicit

Machine integers are modelled as Nat; the HRESULT type is modelled as a
Nat holding the 32-bit pattern, with failure meaning the sign bit is set.
Helpers whose definitions live in repository headers that are not part of
the excerpt are modelled from the specification and marked as such.
-/

/-! ### HRESULT model -/

/-- Success code S_OK / D3D_OK (value 0). -/
def S_OK : ℕ := 0

/-- Success code S_FALSE (value 1). -/
def S_FALSE : ℕ := 1

/-- Error code E_INVALIDARG (0x80070057). -/
def E_INVALIDARG : ℕ := 0x80070057

/-- Error code DXGI_ERROR_WAS_STILL_DRAWING (0x887A000A). -/
def DXGI_ERROR_WAS_STILL_DRAWING : ℕ := 0x887A000A

/-- Error code D3DERR_INVALIDCALL (0x8876086C). -/
def D3DERR_INVALIDCALL : ℕ := 0x8876086C

/-- The FAILED macro: an HRESULT is a failure when its 32-bit sign bit is set. -/
def hrFailed (hr : ℕ) : Bool := decide (0x80000000 ≤ hr)

/-! ### Device-memory chunk sub-allocator (src/dxvk/dxvk_memory.cpp)

A chunk owns a free list of (offset, length) slices; DxvkMemoryChunk::alloc
picks a slice worst-fit, aligns the allocation upward, and returns the
unused head and tail of the slice to the free list; DxvkMemoryChunk::free
coalesces the freed range with adjacent free slices in a single pass. -/

/-- A free-list entry of DxvkMemoryChunk: a (offset, length) byte range. -/
structure FreeSlice where
  offset : ℕ
  length : ℕ
deriving DecidableEq, Repr

/-- A sub-allocation handed out by a chunk: its byte offset and length.
Corresponds to the (m_offset, m_length) fields of DxvkMemory. -/
structure ChunkMemory where
  offset : ℕ
  length : ℕ
deriving DecidableEq, Repr

/-- State of one DxvkMemoryChunk: the property flags and priority of its
device memory, the chunk size, and the free list. -/
structure MemoryChunk where
  memFlags : ℕ
  priority : ℕ
  memSize : ℕ
  freeList : List FreeSlice
deriving DecidableEq, Repr

/-- Modelled from the spec: allocations are aligned upward to the
requirement's alignment (dxvk::align lives in a util header outside the
excerpt; for the power-of-two alignments Vulkan guarantees, upward
alignment is rounding up to the next multiple). -/
def alignUp (n a : ℕ) : ℕ :=
  if a = 0 then n else ((n + a - 1) / a) * a

/-- The selection loop of DxvkMemoryChunk::alloc: scan the free list,
stopping at the first slice whose length equals the request exactly, and
otherwise remembering the first slice of maximal length (worst-fit).
Arguments: request size, remaining list, index of the next element,
index and length of the best slice so far. Returns the chosen index. -/
def pickBestAux (size : ℕ) : List FreeSlice → ℕ → ℕ → ℕ → ℕ
  | [], _, best, _ => best
  | s :: rest, i, best, bestLen =>
    if s.length = size then i
    else if bestLen < s.length then pickBestAux size rest (i + 1) i s.length
    else pickBestAux size rest (i + 1) best bestLen

/-- Index of the slice DxvkMemoryChunk::alloc selects (bestSlice starts at
the first element and the loop scans from the beginning). -/
def pickBest (size : ℕ) : List FreeSlice → ℕ
  | [] => 0
  | s :: rest => pickBestAux size (s :: rest) 0 0 s.length

/-- DxvkMemoryChunk::alloc. Fails when flags or priority differ from the
chunk's, when the free list is empty, or when the aligned range does not
fit the chosen slice; otherwise removes the chosen slice, returns its
unused head and tail to the free list, and yields the aligned range. -/
def chunkAlloc (c : MemoryChunk) (flags size align priority : ℕ) :
    Option (ChunkMemory × MemoryChunk) :=
  if c.memFlags ≠ flags ∨ c.priority ≠ priority then none
  else if c.freeList.length = 0 then none
  else
    let bi := pickBest size c.freeList
    match c.freeList[bi]? with
    | none => none
    | some best =>
      let sliceStart := best.offset
      let sliceEnd := best.offset + best.length
      let allocStart := alignUp sliceStart align
      let allocEnd := alignUp (allocStart + size) align
      if sliceEnd < allocEnd then none
      else
        let l1 := c.freeList.eraseIdx bi
        let l2 := if allocStart ≠ sliceStart
          then l1 ++ [⟨sliceStart, allocStart - sliceStart⟩] else l1
        let l3 := if allocEnd ≠ sliceEnd
          then l2 ++ [⟨allocEnd, sliceEnd - allocEnd⟩] else l2
        some (⟨allocStart, allocEnd - allocStart⟩, { c with freeList := l3 })

/-- The merge loop of DxvkMemoryChunk::free: walk the free list once,
absorbing every entry adjacent to the evolving freed range and keeping the
others in order. Returns the final (offset, length) and the kept entries. -/
def freeMergeLoop : ℕ → ℕ → List FreeSlice → ℕ × ℕ × List FreeSlice
  | offset, length, [] => (offset, length, [])
  | offset, length, s :: rest =>
    if s.offset = offset + length then
      freeMergeLoop offset (length + s.length) rest
    else if s.offset + s.length = offset then
      freeMergeLoop (offset - s.length) (length + s.length) rest
    else
      let r := freeMergeLoop offset length rest
      (r.1, r.2.1, s :: r.2.2)

/-- DxvkMemoryChunk::free: coalesce the freed range with every adjacent
free slice, then push the combined slice onto the free list. -/
def chunkFree (c : MemoryChunk) (offset length : ℕ) : MemoryChunk :=
  let r := freeMergeLoop offset length c.freeList
  { c with freeList := r.2.2 ++ [⟨r.1, r.2.1⟩] }

/-- The free list produced by DxvkMemoryChunk::free on a given free list:
the kept slices followed by the coalesced freed slice. This is exactly
(chunkFree c offset length).freeList. -/
def mergedFreeList (offset length : ℕ) (L : List FreeSlice) : List FreeSlice :=
  (freeMergeLoop offset length L).2.2 ++
    [⟨(freeMergeLoop offset length L).1, (freeMergeLoop offset length L).2.1⟩]

/-- Total number of free bytes in a free list. -/
def sumLen (l : List FreeSlice) : ℕ := (l.map FreeSlice.length).sum

/-- Two slices are separated: disjoint and not even adjacent. -/
def sliceSep (s t : FreeSlice) : Prop :=
  s.offset + s.length < t.offset ∨ t.offset + t.length < s.offset

instance (s t : FreeSlice) : Decidable (sliceSep s t) := by
  unfold sliceSep; infer_instance

/-- Well-formed free list: every slice is non-empty and the slices are
pairwise separated (disjoint and non-adjacent). -/
def wfFreeList (l : List FreeSlice) : Prop :=
  (∀ s ∈ l, 0 < s.length) ∧ l.Pairwise sliceSep

instance (l : List FreeSlice) : Decidable (wfFreeList l) := by
  unfold wfFreeList; infer_instance

/-! ### DxvkMemoryAllocator::tryAllocFromType (src/dxvk/dxvk_memory.cpp) -/

/-- Outcome of tryAllocFromType: a dedicated device-memory allocation of
the given size, an allocation carved out of the existing chunk at the
given index, an allocation from a freshly created chunk, or failure. -/
inductive AllocResult where
  | dedicated (size : ℕ)
  | fromChunk (idx : ℕ) (mem : ChunkMemory)
  | fromNewChunk (mem : ChunkMemory)
  | fail
deriving DecidableEq, Repr

/-- The chunk walk of tryAllocFromType: try each existing chunk in order,
returning the index, the allocation and the updated chunk list of the
first success. -/
def walkChunks (flags size align priority : ℕ) :
    List MemoryChunk → Option (ℕ × ChunkMemory × List MemoryChunk)
  | [] => none
  | c :: rest =>
    match chunkAlloc c flags size align priority with
    | some (m, c2) => some (0, m, c2 :: rest)
    | none =>
      match walkChunks flags size align priority rest with
      | some (i, m, rest2) => some (i + 1, m, c :: rest2)
      | none => none

/-- VK_MEMORY_PROPERTY_DEVICE_LOCAL_BIT. -/
def VK_MEMORY_PROPERTY_DEVICE_LOCAL_BIT : ℕ := 1

/-- The priority adjustment at the top of tryAllocFromType: non-device-local
allocations (bit 0 of the property flags clear) get priority 0. -/
def allocPriority (flags priority : ℕ) : ℕ :=
  if flags % 2 = 1 then priority else 0

/-- DxvkMemoryAllocator::tryAllocFromType. The priority of non-device-local
allocations is forced to zero. A request of at least a quarter of the
heap's chunk size, or carrying a dedicated-allocation hint, goes to a
dedicated device-memory allocation; otherwise the existing chunks are
walked in order and, if all fail, a new chunk of the heap's chunk size is
created (and appended to the chunk list even if carving from it fails).
The oracle devMemOk models whether vkAllocateMemory succeeds for a given
size. Returns the outcome and the updated chunk list. -/
def tryAllocFromType (chunks : List MemoryChunk) (chunkSize flags size align priority : ℕ)
    (hasDedAllocInfo : Bool) (devMemOk : ℕ → Bool) : AllocResult × List MemoryChunk :=
  let prio := allocPriority flags priority
  if chunkSize / 4 ≤ size ∨ hasDedAllocInfo = true then
    if devMemOk size then (.dedicated size, chunks) else (.fail, chunks)
  else
    match walkChunks flags size align prio chunks with
    | some (i, m, chunks2) => (.fromChunk i m, chunks2)
    | none =>
      if devMemOk chunkSize then
        let newChunk : MemoryChunk := ⟨flags, prio, chunkSize, [⟨0, chunkSize⟩]⟩
        match chunkAlloc newChunk flags size align prio with
        | some (m, c2) => (.fromNewChunk m, chunks ++ [c2])
        | none => (.fail, chunks ++ [newChunk])
      else (.fail, chunks)

/-! ### DxvkImage::isViewCompatible (src/dxvk/dxvk_image.h) -/

/-- The scan loop of isViewCompatible: runs while the result is still
false, OR-ing in an equality test against each entry of m_viewFormats. -/
def viewCompatLoop (format : ℕ) : List ℕ → Bool → Bool
  | [], r => r
  | v :: rest, r => if r then r else viewCompatLoop format rest (r || (v == format))

/-- DxvkImage::isViewCompatible: true when the queried format equals the
image's creation format or appears in the list of view formats. -/
def isViewCompatible (infoFormat : ℕ) (viewFormats : List ℕ) (format : ℕ) : Bool :=
  viewCompatLoop format viewFormats (infoFormat == format)

/-! ### D3D11 immediate context: flush policy (src/d3d11/d3d11_context_imm.cpp)

The same three constants and the token-identical FlushImplicit body appear
in D3D9DeviceEx::FlushImplicit (src/d3d9/d3d9_device.cpp, lines 3876-3891);
the d3d9 constants live in a header outside the excerpt and the spec gives
them the same values, so one embedding covers both devices. -/

/-- Minimum interval between implicit flushes, in microseconds. -/
def MinFlushIntervalUs : ℕ := 750

/-- Per-pending-submission increment of the flush interval, in microseconds. -/
def IncFlushIntervalUs : ℕ := 250

/-- Implicit flushes are suppressed above this many pending submissions. -/
def MaxPendingSubmits : ℕ := 6

/-- The guard inside Flush() (d3d11_context_imm.cpp line 111, d3d9_device.cpp
line 4134): the command buffer is closed and submitted only when the CS
thread is busy or the current chunk holds commands. -/
def flushSubmits (csIsBusy : Bool) (chunkCommandCount : ℕ) : Bool :=
  csIsBusy || chunkCommandCount != 0

/-- FlushImplicit followed by the guard of Flush(): returns true exactly
when a native command buffer is closed and submitted. elapsedNs is the
time since the last flush in nanoseconds (the source compares
high-resolution-clock durations against microseconds(delay)). -/
def flushImplicit (strongHint : Bool) (pending : ℕ) (elapsedNs : ℕ)
    (csIsBusy : Bool) (chunkCommandCount : ℕ) : Bool :=
  if strongHint = true ∨ pending ≤ MaxPendingSubmits then
    let delay := MinFlushIntervalUs + IncFlushIntervalUs * pending
    if 1000 * delay ≤ elapsedNs then flushSubmits csIsBusy chunkCommandCount
    else false
  else false

/-! ### D3D11 buffer mapping (src/d3d11/d3d11_context_imm.cpp) -/

/-- Map mode of a D3D11 buffer or texture; the spec's data model gives
map mode ∈ \x7bnone, direct, buffered\x7d. MapBuffer only distinguishes NONE. -/
inductive BufferMapMode where
  | modeNone
  | modeDirect
  | modeBuffered
deriving DecidableEq, Repr

/-- D3D11_MAP values. -/
inductive D3D11MapType where
  | read
  | write
  | readWrite
  | writeDiscard
  | writeNoOverwrite
deriving DecidableEq, Repr

/-- A physical backing slice of a buffer: its identity in the rename pool
and its host map pointer (DxvkBufferSliceHandle). -/
structure BufferSliceHandle where
  sliceId : ℕ
  mapPtr : ℕ
deriving DecidableEq, Repr

/-- Model of a D3D11 buffer as MapBuffer sees it: the common map mode, the
byte width of its description, the rename pool of backing slices, and the
index of the current slice. -/
structure D3D11BufferModel where
  mapMode : BufferMapMode
  byteWidth : ℕ
  pool : ℕ → BufferSliceHandle
  cur : ℕ

/-- Modelled from the spec: alloc_slice()/DiscardSlice atomically obtains
the next slice from the rename pool and installs it as the buffer's
current slice (the body lives in d3d11_buffer.h, outside the excerpt). -/
def discardSlice (b : D3D11BufferModel) : BufferSliceHandle × D3D11BufferModel :=
  (b.pool (b.cur + 1), { b with cur := b.cur + 1 })

/-- GetMappedSlice: the current slice, with no synchronization. -/
def getMappedSlice (b : D3D11BufferModel) : BufferSliceHandle :=
  b.pool b.cur

/-- Commands emitted to the CS worker that the mapping claims mention. -/
inductive CsCmd where
  | invalidateBuffer (slice : BufferSliceHandle)
  | flushCommandList
deriving DecidableEq, Repr

/-- D3D11_MAPPED_SUBRESOURCE. -/
structure MappedSubresource where
  pData : ℕ
  rowPitch : ℕ
  depthPitch : ℕ
deriving DecidableEq, Repr

/-- Side effects of WaitForResource that are visible to the caller:
whether FlushImplicit(FALSE) ran, whether a full Flush() ran, and the
index of the check at which the blocking loop saw the resource idle. -/
structure WaitEffects where
  implicitFlush : Bool
  flushed : Bool
  waited : ℕ
deriving DecidableEq, Repr

/-- The spin loop of WaitForResource: re-check isInUse from check index t
on, yielding between checks; fuel bounds the number of checks modelled. -/
def waitIdleLoop (inUse : ℕ → Bool) : ℕ → ℕ → Option ℕ
  | _, 0 => none
  | t, fuel + 1 => if inUse t then waitIdleLoop inUse (t + 1) fuel else some t

/-- D3D11ImmediateContext::WaitForResource. The DO_NOT_WAIT map flag is
cleared unless the allowMapFlagNoWait option is set. The CS thread is
synchronized, then: if the resource is idle, return true at once; if it is
in use and DO_NOT_WAIT survives, run FlushImplicit(FALSE) and return
false; otherwise Flush(), synchronize, and spin until the resource is
idle. inUse gives the observed in-use state at each check (index 0 is the
check before the loop); none models exhausting the fuel while spinning. -/
def waitForResource (allowNoWait doNotWait : Bool) (inUse : ℕ → Bool) (fuel : ℕ) :
    Option (Bool × WaitEffects) :=
  let dnw := allowNoWait && doNotWait
  if inUse 0 then
    if dnw then some (false, ⟨true, false, 0⟩)
    else
      match waitIdleLoop inUse 1 fuel with
      | some t => some (true, ⟨false, true, t⟩)
      | none => none
  else some (true, ⟨false, false, 0⟩)

/-- D3D11ImmediateContext::MapBuffer. A buffer whose map mode is NONE is
rejected with E_INVALIDARG. WRITE_DISCARD installs a fresh slice via
DiscardSlice, emits invalidateBuffer naming it, and returns its host
pointer with row and depth pitch equal to the byte width. Every other
mode except WRITE_NO_OVERWRITE first runs WaitForResource, failing with
DXGI_ERROR_WAS_STILL_DRAWING when it returns false; on success (and for
WRITE_NO_OVERWRITE, with no synchronization at all) the current mapped
slice's pointer is returned. The MappedSubresource component is none on
the failure paths, which leave the caller's structure untouched here (the
Map wrapper overwrites it). Returns none only if the spin loop of
WaitForResource exhausts its fuel. -/
def mapBuffer (b : D3D11BufferModel) (mapType : D3D11MapType)
    (allowNoWait doNotWait : Bool) (inUse : ℕ → Bool) (fuel : ℕ) :
    Option (ℕ × Option MappedSubresource × D3D11BufferModel × List CsCmd × WaitEffects) :=
  if b.mapMode = .modeNone then
    some (E_INVALIDARG, none, b, [], ⟨false, false, 0⟩)
  else if mapType = .writeDiscard then
    let r := discardSlice b
    some (S_OK, some ⟨r.1.mapPtr, b.byteWidth, b.byteWidth⟩, r.2,
      [.invalidateBuffer r.1], ⟨false, false, 0⟩)
  else
    if mapType ≠ .writeNoOverwrite then
      match waitForResource allowNoWait doNotWait inUse fuel with
      | none => none
      | some (false, eff) =>
        some (DXGI_ERROR_WAS_STILL_DRAWING, none, b, [], eff)
      | some (true, eff) =>
        some (S_OK, some ⟨(getMappedSlice b).mapPtr, b.byteWidth, b.byteWidth⟩,
          b, [], eff)
    else
      some (S_OK, some ⟨(getMappedSlice b).mapPtr, b.byteWidth, b.byteWidth⟩,
        b, [], ⟨false, false, 0⟩)

/-- D3D11ImmediateContext::Map. A null resource or null output pointer is
rejected with E_INVALIDARG before anything is written; otherwise the
request is dispatched to MapBuffer/MapImage (abstracted here as the pair
inner of their result code and the value they stored), and on failure the
caller's structure is overwritten with a zero-initialized
D3D11_MAPPED_SUBRESOURCE. prev is the content the caller's structure held
on entry; the returned MappedSubresource is its content on exit. -/
def d3d11Map (resourceNull outputNull : Bool) (prev : MappedSubresource)
    (inner : ℕ × Option MappedSubresource) : ℕ × MappedSubresource :=
  if resourceNull || outputNull then (E_INVALIDARG, prev)
  else if hrFailed inner.1 then (inner.1, ⟨0, 0, 0⟩)
  else (inner.1, inner.2.getD prev)

/-! ### D3D11 view creation (src/d3d11/d3d11_device.cpp) -/

/-- D3D11_RESOURCE_DIMENSION. -/
inductive ResourceDim where
  | unknown
  | buffer
  | texture1D
  | texture2D
  | texture3D
deriving DecidableEq, Repr

/-- D3D11Device::CreateRenderTargetView, with the helpers that live outside
the excerpt abstracted as boolean outcomes: descProvided is pDesc != null,
getDescOk / normalizeOk the success of GetDescFromResource / NormalizeDesc,
compatOk the result of CheckResourceViewCompatibility, ppViewNull whether
the caller passed a null output pointer, ctorOk whether the view
constructor succeeds. Returns the HRESULT and whether a non-null view was
stored. A buffer resource short-circuits to S_OK with the output pointer
still null (the InitReturnPtr at the top). -/
def createRenderTargetView (resourceNull : Bool) (dim : ResourceDim)
    (descProvided getDescOk normalizeOk compatOk ppViewNull ctorOk : Bool) :
    ℕ × Bool :=
  if resourceNull then (E_INVALIDARG, false)
  else if dim = .buffer then (S_OK, false)
  else if descProvided then
    if !normalizeOk then (E_INVALIDARG, false)
    else if !compatOk then (E_INVALIDARG, false)
    else if ppViewNull then (S_FALSE, false)
    else if ctorOk then (S_OK, true) else (E_INVALIDARG, false)
  else
    if !getDescOk then (E_INVALIDARG, false)
    else if !compatOk then (E_INVALIDARG, false)
    else if ppViewNull then (S_FALSE, false)
    else if ctorOk then (S_OK, true) else (E_INVALIDARG, false)

/-- D3D11Device::CreateDepthStencilView, abstracted exactly like
createRenderTargetView. It has no special case for buffers: the desc and
compatibility checks run for every resource dimension. -/
def createDepthStencilView (resourceNull : Bool) (dim : ResourceDim)
    (descProvided getDescOk normalizeOk compatOk ppViewNull ctorOk : Bool) :
    ℕ × Bool :=
  if resourceNull then (E_INVALIDARG, false)
  else if descProvided then
    if !normalizeOk then (E_INVALIDARG, false)
    else if !compatOk then (E_INVALIDARG, false)
    else if ppViewNull then (S_FALSE, false)
    else if ctorOk then (S_OK, true) else (E_INVALIDARG, false)
  else
    if !getDescOk then (E_INVALIDARG, false)
    else if !compatOk then (E_INVALIDARG, false)
    else if ppViewNull then (S_FALSE, false)
    else if ctorOk then (S_OK, true) else (E_INVALIDARG, false)

/-! ### D3D9 device state (src/d3d9/d3d9_device.cpp)

Render-state ids use the standard D3D9 numeric values of the legacy API:
ZENABLE=7, FILLMODE=8, ZWRITEENABLE=14, ALPHATESTENABLE=15, SRCBLEND=19,
DESTBLEND=20, CULLMODE=22, ZFUNC=23, ALPHAREF=24, ALPHAFUNC=25,
ALPHABLENDENABLE=27, STENCILENABLE=52, STENCILFAIL=53, STENCILZFAIL=54,
STENCILPASS=55, STENCILFUNC=56, STENCILREF=57, STENCILMASK=58,
STENCILWRITEMASK=59, TEXTUREFACTOR=60, LIGHTING=137, COLORVERTEX=141,
DIFFUSEMATERIALSOURCE=145, SPECULARMATERIALSOURCE=146,
AMBIENTMATERIALSOURCE=147, EMISSIVEMATERIALSOURCE=148, CLIPPLANEENABLE=152,
POINTSIZE=154, MULTISAMPLEMASK=162, COLORWRITEENABLE=168, BLENDOP=171,
SCISSORTESTENABLE=174, SLOPESCALEDEPTHBIAS=175, ADAPTIVETESS_Y=181,
TWOSIDEDSTENCILMODE=185, CCW_STENCILFAIL=186, CCW_STENCILZFAIL=187,
CCW_STENCILPASS=188, CCW_STENCILFUNC=189, COLORWRITEENABLE1=190,
COLORWRITEENABLE2=191, COLORWRITEENABLE3=192, BLENDFACTOR=193,
SRGBWRITEENABLE=194, DEPTHBIAS=195, SEPARATEALPHABLENDENABLE=206,
SRCBLENDALPHA=207, DESTBLENDALPHA=208, BLENDOPALPHA=209. -/

/-- The D3D9DeviceFlag bits that SetRenderState / SetRenderTarget touch. -/
structure D3D9Flags where
  validSampleMask : Bool
  dirtyMultiSampleState : Bool
  dirtyBlendState : Bool
  dirtyAlphaTestState : Bool
  dirtyDepthStencilState : Bool
  dirtyViewportScissor : Bool
  dirtyFramebuffer : Bool
  dirtyRasterizerState : Bool
  dirtyClipPlanes : Bool
  dirtyFFPixelData : Bool
  dirtyFFVertexShader : Bool
  dirtyFFViewport : Bool
deriving DecidableEq, Repr

/-- Mutator side effects of SetRenderState that go through EmitCs or
UpdatePushConstant rather than a dirty bit: BindBlendFactor (BLENDFACTOR),
BindDepthStencilRefrence (STENCILREF), the AlphaRef push constant
(ALPHAREF), and ResolveZ (the RESZ driver hack). -/
inductive D3D9SideEffect where
  | blendFactor
  | depthStencilRef
  | alphaRefPush
  | resolveZ
deriving DecidableEq, Repr

/-- A D3D9 viewport as SetRenderTarget rebuilds it (MinZ/MaxZ are the
float constants 0.0f and 1.0f, recorded here as the naturals 0 and 1). -/
structure D3D9Viewport where
  x : ℕ
  y : ℕ
  width : ℕ
  height : ℕ
  minZ : ℕ
  maxZ : ℕ
deriving DecidableEq, Repr

/-- A scissor rectangle. -/
structure D3D9Rect where
  left : ℕ
  top : ℕ
  right : ℕ
  bottom : ℕ
deriving DecidableEq, Repr

/-- The slice of D3D9DeviceEx state that the embedded mutators touch:
the render-state array, the two ATOC driver-hack latches, the flag bits,
the bound render targets (surface ids), viewport and scissor, and the
accumulated EmitCs-style side effects. -/
structure D3D9StateModel where
  renderStates : ℕ → ℕ
  amdATOC : Bool
  nvATOC : Bool
  flags : D3D9Flags
  renderTargets : ℕ → Option ℕ
  viewport : D3D9Viewport
  scissorRect : D3D9Rect
  emitted : List D3D9SideEffect

/-- Set the DirtyMultiSampleState flag. -/
def setDirtyMS (st : D3D9StateModel) : D3D9StateModel :=
  { st with flags := { st.flags with dirtyMultiSampleState := true } }

/-- The dirty-flag switch at the end of SetRenderState, run after
states[State] = Value. It only touches the device flag bits and the
emitted commands, so it is modelled as a transformer of those two
components. oldATOC is IsAlphaToCoverageEnabled computed before the
mutation and newATOC its value on the updated state (the function itself
is defined in d3d9_device.h, outside the excerpt); the ALPHATESTENABLE
case compares them and falls through to the ALPHAFUNC case. -/
def applyRenderStateDirty (flags : D3D9Flags) (emitted : List D3D9SideEffect)
    (oldATOC newATOC : Bool) (state : ℕ) : D3D9Flags × List D3D9SideEffect :=
  if state = 206 ∨ state = 27 ∨ state = 171 ∨ state = 209 ∨ state = 20 ∨
     state = 208 ∨ state = 168 ∨ state = 190 ∨ state = 191 ∨ state = 192 ∨
     state = 19 ∨ state = 207 then
    ({ flags with dirtyBlendState := true }, emitted)
  else if state = 15 then
    let f2 := if oldATOC ≠ newATOC
      then { flags with dirtyMultiSampleState := true } else flags
    ({ f2 with dirtyAlphaTestState := true }, emitted)
  else if state = 25 then
    ({ flags with dirtyAlphaTestState := true }, emitted)
  else if state = 193 then
    (flags, emitted ++ [.blendFactor])
  else if state = 162 then
    (if flags.validSampleMask
      then { flags with dirtyMultiSampleState := true } else flags, emitted)
  else if state = 7 ∨ state = 23 ∨ state = 185 ∨ state = 14 ∨ state = 52 ∨
     state = 53 ∨ state = 54 ∨ state = 55 ∨ state = 56 ∨ state = 186 ∨
     state = 187 ∨ state = 188 ∨ state = 189 ∨ state = 58 ∨ state = 59 then
    ({ flags with dirtyDepthStencilState := true }, emitted)
  else if state = 57 then
    (flags, emitted ++ [.depthStencilRef])
  else if state = 174 then
    ({ flags with dirtyViewportScissor := true }, emitted)
  else if state = 194 then
    ({ flags with dirtyFramebuffer := true }, emitted)
  else if state = 195 ∨ state = 175 ∨ state = 22 ∨ state = 8 then
    ({ flags with dirtyRasterizerState := true }, emitted)
  else if state = 152 then
    ({ flags with dirtyClipPlanes := true }, emitted)
  else if state = 24 then
    (flags, emitted ++ [.alphaRefPush])
  else if state = 60 then
    ({ flags with dirtyFFPixelData := true }, emitted)
  else if state = 145 ∨ state = 147 ∨ state = 146 ∨ state = 148 ∨
     state = 141 ∨ state = 137 then
    ({ flags with dirtyFFVertexShader := true }, emitted)
  else (flags, emitted)

/-- D3D9DeviceEx::SetRenderState outside state-block recording. Ids above
255 or in 1..6 are ignored with D3D_OK; an unchanged value is a no-op.
POINTSIZE carries the AMD ATOC (fourcc A2M1 = 0x314D3241 enables, fourcc
A2M0 = 0x304D3241 disables) and RESZ (0x7fa05000) driver hacks, and
ADAPTIVETESS_Y the NV ATOC hack (fourcc ATOC = 0x434F5441 enables, 0
disables); each hack returns D3D_OK without storing the value. Otherwise
the value is stored and the dirty switch runs. atoc models
IsAlphaToCoverageEnabled. -/
def setRenderState (st : D3D9StateModel) (atoc : D3D9StateModel → Bool)
    (state value : ℕ) : D3D9StateModel × ℕ :=
  if 255 < state ∨ (state < 7 ∧ state ≠ 0) then (st, S_OK)
  else if st.renderStates state = value then (st, S_OK)
  else
    let oldATOC := atoc st
    if state = 154 ∧ (value = 0x314D3241 ∨ value = 0x304D3241) then
      let st2 := { st with amdATOC := value = 0x314D3241 }
      (if oldATOC ≠ atoc st2 then setDirtyMS st2 else st2, S_OK)
    else if state = 154 ∧ value = 0x7fa05000 then
      ({ st with emitted := st.emitted ++ [.resolveZ] }, S_OK)
    else if state = 181 ∧ (value = 0x434F5441 ∨ value = 0) then
      let st2 := { st with nvATOC := value = 0x434F5441 }
      (if oldATOC ≠ atoc st2 then setDirtyMS st2 else st2, S_OK)
    else
      let st2 := { st with renderStates := Function.update st.renderStates state value }
      let r := applyRenderStateDirty st2.flags st2.emitted oldATOC (atoc st2) state
      ({ st2 with flags := r.1, emitted := r.2 }, S_OK)

/-- D3D9DeviceEx::GetRenderState. Ids above 255 or in 1..6 fail with
D3DERR_INVALIDCALL leaving the output untouched (none); ids outside
ZENABLE..BLENDOPALPHA (7..209) read as 0; the rest read the state array. -/
def getRenderState (st : D3D9StateModel) (state : ℕ) : Option ℕ × ℕ :=
  if 255 < state ∨ (state < 7 ∧ state ≠ 0) then (none, D3DERR_INVALIDCALL)
  else if state < 7 ∨ 209 < state then (some 0, S_OK)
  else (some (st.renderStates state), S_OK)

/-- Modelled from the spec: caps::MaxSimultaneousRenderTargets of the
version-9 API (the caps header is outside the excerpt; the legacy API
fixes it at 4). -/
def MaxSimultaneousRenderTargets : ℕ := 4

/-- D3DMULTISAMPLE_NONMASKABLE of the legacy API (value 1). -/
def D3DMULTISAMPLE_NONMASKABLE : ℕ := 1

/-- D3D9DeviceEx::SetRenderTarget. surfMs, surfW, surfH give the
MultiSample type, Width and Height of a surface's description. An index
at or past MaxSimultaneousRenderTargets, or a null surface at index 0, is
D3DERR_INVALIDCALL; rebinding the already-bound surface is a no-op. A real
change marks the framebuffer dirty and, for index 0, recomputes the
ValidSampleMask flag from MultiSample > NONMASKABLE of the newly bound
surface (marking multisample state dirty when the flag changes) and resets
viewport and scissor to the full surface. The implicit flush the source
issues here is covered by the flushImplicit embedding and not repeated in
this state transformer. -/
def setRenderTarget (st : D3D9StateModel) (index : ℕ) (rt : Option ℕ)
    (surfMs surfW surfH : ℕ → ℕ) : D3D9StateModel × ℕ :=
  if MaxSimultaneousRenderTargets ≤ index ∨ (rt = none ∧ index = 0) then
    (st, D3DERR_INVALIDCALL)
  else if st.renderTargets index = rt then (st, S_OK)
  else
    let st1 := { st with
      flags := { st.flags with dirtyFramebuffer := true },
      renderTargets := Function.update st.renderTargets index rt }
    if index = 0 then
      let ms := (rt.map surfMs).getD 0
      let w := (rt.map surfW).getD 0
      let h := (rt.map surfH).getD 0
      let valid := decide (D3DMULTISAMPLE_NONMASKABLE < ms)
      let st2 := if valid ≠ st1.flags.validSampleMask then
          { st1 with flags := { st1.flags with
              validSampleMask := valid, dirtyMultiSampleState := true } }
        else st1
      ({ st2 with
          viewport := ⟨0, 0, w, h, 0, 1⟩,
          scissorRect := ⟨0, 0, w, h⟩,
          flags := { st2.flags with
            dirtyViewportScissor := true, dirtyFFViewport := true } }, S_OK)
    else (st1, S_OK)

/-- The DxvkMultisampleState fields BindMultiSampleState fills in. -/
structure MultisampleState where
  sampleMask : ℕ
  enableAlphaToCoverage : Bool
deriving DecidableEq, Repr

/-- D3D9DeviceEx::BindMultiSampleState: clears the multisample dirty flag
and emits a multisample state whose sample mask is the MULTISAMPLEMASK
render state (id 162) when the ValidSampleMask flag is set and 0xffffffff
otherwise. atocEnabled stands for IsAlphaToCoverageEnabled. -/
def bindMultiSampleState (st : D3D9StateModel) (atocEnabled : Bool) :
    MultisampleState × D3D9StateModel :=
  (⟨if st.flags.validSampleMask then st.renderStates 162 else 0xffffffff,
    atocEnabled⟩,
   { st with flags := { st.flags with dirtyMultiSampleState := false } })

/-- A concrete dynamic buffer used to instantiate the mapping theorems:
direct map mode, 16-byte width, slice i living at host address 100 + i,
slice 0 current. -/
def exampleBuffer : D3D11BufferModel :=
  ⟨.modeDirect, 16, fun i => ⟨i, 100 + i⟩, 0⟩

/-- All-clear D3D9 device flags. -/
def d3d9DefaultFlags : D3D9Flags :=
  ⟨false, false, false, false, false, false, false, false, false, false, false, false⟩

/-- A concrete default D3D9 device state used to instantiate theorems:
all render states zero, no ATOC latches, clear flags, no render targets. -/
def d3d9DefaultState : D3D9StateModel :=
  ⟨fun _ => 0, false, false, d3d9DefaultFlags, fun _ => none,
   ⟨0, 0, 0, 0, 0, 1⟩, ⟨0, 0, 0, 0⟩, []⟩

/-! ## Theorems -/

/-- The scan loop of isViewCompatible computes the disjunction of its
accumulator with membership of the format in the remaining list. -/
theorem viewCompatLoop_true_iff (format : ℕ) (l : List ℕ) (r : Bool) :
    viewCompatLoop format l r = true ↔ (r = true ∨ format ∈ l) := by
  induction l generalizing r with
  | nil => simp [viewCompatLoop]
  | cons v rest ih =>
    cases r with
    | true => simp [viewCompatLoop]
    | false =>
      have hstep : viewCompatLoop format (v :: rest) false
          = viewCompatLoop format rest (v == format) := by
        simp [viewCompatLoop]
      rw [hstep, ih]
      simp only [List.mem_cons, beq_iff_eq, Bool.false_eq_true, false_or]
      constructor
      · rintro (h | h)
        · exact Or.inl h.symm
        · exact Or.inr h
      · rintro (h | h)
        · exact Or.inl h.symm
        · exact Or.inr h

/-- C10: isViewCompatible returns true for the image's own creation format,
whether or not it appears in the view-format list, and for any other
format exactly when that format appears in the list. -/
theorem c10_isViewCompatible (infoFormat : ℕ) (viewFormats : List ℕ) (format : ℕ) :
    isViewCompatible infoFormat viewFormats format = true ↔
      (format = infoFormat ∨ format ∈ viewFormats) := by
  unfold isViewCompatible
  rw [viewCompatLoop_true_iff]
  simp only [beq_iff_eq]
  constructor
  · rintro (h | h)
    exacts [Or.inl h.symm, Or.inr h]
  · rintro (h | h)
    exacts [Or.inl h.symm, Or.inr h]

/-- C2 counterexample: with a strong hint, no pending submissions and a
full second since the last flush, the claimed flush condition holds, yet
no native command buffer is closed and submitted when the CS thread is
idle and the current chunk is empty. -/
theorem c2_counterexample :
    flushImplicit true 0 1000000000 false 0 = false ∧
    ((true = true) ∨ (0 : ℕ) ≤ MaxPendingSubmits) ∧
    1000 * (MinFlushIntervalUs + IncFlushIntervalUs * 0) ≤ 1000000000 := by
  refine ⟨by decide, Or.inl rfl, by decide⟩

/-- C2 (amended): a call to FlushImplicit closes and submits the current
native command buffer exactly when (strong hint OR pending ≤ 6), the time
since the last flush is at least 750 µs + 250 µs × pending, AND the
context actually has work (the CS thread is busy or the current chunk
holds commands). -/
theorem c2_flushImplicit_iff (s : Bool) (p e : ℕ) (b : Bool) (c : ℕ) :
    flushImplicit s p e b c = true ↔
      ((s = true ∨ p ≤ MaxPendingSubmits) ∧
       1000 * (MinFlushIntervalUs + IncFlushIntervalUs * p) ≤ e ∧
       (b = true ∨ c ≠ 0)) := by
  simp only [flushImplicit, flushSubmits]
  split_ifs with h1 h2
  · simp only [Bool.or_eq_true, bne_iff_ne, ne_eq]
    tauto
  · simp only [Bool.false_eq_true, false_iff]
    tauto
  · simp only [Bool.false_eq_true, false_iff]
    tauto

/-- C6 counterexample: CreateDepthStencilView for a buffer resource (with
no caller-provided description, and GetDescFromResource failing as it does
for buffers) returns E_INVALIDARG with a null view, not S_OK. -/
theorem c6_counterexample :
    createDepthStencilView false .buffer false false true true false true
      = (E_INVALIDARG, false) ∧ E_INVALIDARG ≠ S_OK := by
  refine ⟨by decide, by decide⟩

/-- C6 (amended): the buffer tolerance lives in CreateRenderTargetView,
which returns S_OK with the output view left null for every buffer
resource; CreateDepthStencilView has no such path and never returns S_OK
together with a null view, whatever its helpers decide. -/
theorem c6_amended :
    (∀ descProvided getDescOk normalizeOk compatOk ppViewNull ctorOk : Bool,
      createRenderTargetView false .buffer descProvided getDescOk normalizeOk
        compatOk ppViewNull ctorOk = (S_OK, false)) ∧
    (∀ descProvided getDescOk normalizeOk compatOk ppViewNull ctorOk : Bool,
      createDepthStencilView false .buffer descProvided getDescOk normalizeOk
        compatOk ppViewNull ctorOk ≠ (S_OK, false)) := by
  refine ⟨fun _ _ _ _ _ _ => rfl, ?_⟩
  intro descProvided getDescOk normalizeOk compatOk ppViewNull ctorOk
  unfold createDepthStencilView
  split_ifs <;> decide

/-- C9 counterexample: Map with a null resource pointer but a valid output
structure fails with E_INVALIDARG and leaves the output structure holding
its previous contents instead of zeroing it. -/
theorem c9_counterexample :
    d3d11Map true false ⟨5, 6, 7⟩ (S_OK, none) = (E_INVALIDARG, ⟨5, 6, 7⟩) ∧
    hrFailed E_INVALIDARG = true ∧
    (⟨5, 6, 7⟩ : MappedSubresource) ≠ ⟨0, 0, 0⟩ := by
  refine ⟨by decide, by decide, by decide⟩

/-- C9 (amended): when both the resource and the output pointer are
non-null, every failing Map overwrites the output structure with zeroes;
a null resource or output pointer fails with E_INVALIDARG before anything
is written, leaving the structure untouched. -/
theorem c9_amended (prev : MappedSubresource) (inner : ℕ × Option MappedSubresource) :
    (hrFailed (d3d11Map false false prev inner).1 = true →
      (d3d11Map false false prev inner).2 = ⟨0, 0, 0⟩) ∧
    (∀ outputNull : Bool, d3d11Map true outputNull prev inner = (E_INVALIDARG, prev)) := by
  constructor
  · intro h
    unfold d3d11Map at h ⊢
    simp only [Bool.or_self, Bool.false_or, if_false] at h ⊢
    by_cases hf : hrFailed inner.1
    · simp [hf]
    · simp [hf] at h ⊢
  · intro outputNull
    unfold d3d11Map
    simp

/-- Witness for c9_amended at a concrete failing inner result. -/
theorem c9_amended_witness :
    hrFailed (d3d11Map false false ⟨1, 2, 3⟩ (E_INVALIDARG, none)).1 = true ∧
    (d3d11Map false false ⟨1, 2, 3⟩ (E_INVALIDARG, none)).2 = ⟨0, 0, 0⟩ :=
  ⟨by decide, (c9_amended ⟨1, 2, 3⟩ (E_INVALIDARG, none)).1 (by decide)⟩

/-- C1: mapping a buffer whose map mode is not NONE with WRITE_DISCARD
succeeds immediately — independently of the in-use trace, with no wait,
flush or implicit flush — installs the next rename-pool slice as the
current slice, emits exactly one invalidate_buffer command naming that
slice, and returns the new slice's host pointer with row and depth pitch
both equal to the buffer's byte width. -/
theorem c1_mapBuffer_writeDiscard (b : D3D11BufferModel) (anw dnw : Bool)
    (inUse : ℕ → Bool) (fuel : ℕ) (h : b.mapMode ≠ .modeNone) :
    mapBuffer b .writeDiscard anw dnw inUse fuel =
      some (S_OK, some ⟨(b.pool (b.cur + 1)).mapPtr, b.byteWidth, b.byteWidth⟩,
        { b with cur := b.cur + 1 },
        [CsCmd.invalidateBuffer (b.pool (b.cur + 1))], ⟨false, false, 0⟩) := by
  unfold mapBuffer discardSlice
  simp [h]

/-- Witness for c1_mapBuffer_writeDiscard on the concrete example buffer. -/
theorem c1_witness :
    exampleBuffer.mapMode ≠ .modeNone ∧
    mapBuffer exampleBuffer .writeDiscard true false (fun _ => true) 5 =
      some (S_OK, some ⟨101, 16, 16⟩, { exampleBuffer with cur := 1 },
        [CsCmd.invalidateBuffer ⟨1, 101⟩], ⟨false, false, 0⟩) :=
  ⟨by decide, c1_mapBuffer_writeDiscard exampleBuffer true false (fun _ => true) 5 (by decide)⟩

/-- The spin loop of WaitForResource returns the first check index at or
after its starting index at which the resource is observed idle. -/
theorem waitIdleLoop_spec (inUse : ℕ → Bool) :
    ∀ (fuel t0 t : ℕ), waitIdleLoop inUse t0 fuel = some t →
      inUse t = false ∧ t0 ≤ t ∧ ∀ u, t0 ≤ u → u < t → inUse u = true := by
  intro fuel
  induction fuel with
  | zero => intro t0 t h; simp [waitIdleLoop] at h
  | succ n ih =>
    intro t0 t h
    simp only [waitIdleLoop] at h
    by_cases hu : inUse t0 = true
    · rw [if_pos hu] at h
      obtain ⟨h1, h2, h3⟩ := ih (t0 + 1) t h
      refine ⟨h1, by omega, ?_⟩
      intro u hu1 hu2
      rcases Nat.eq_or_lt_of_le hu1 with rfl | hlt
      · exact hu
      · exact h3 u (by omega) hu2
    · rw [if_neg hu] at h
      obtain rfl := Option.some.inj h
      exact ⟨by simpa using hu, le_refl _,
        fun u h1 h2 => absurd (lt_of_le_of_lt h1 h2) (lt_irrefl _)⟩

/-- C3: for a mappable buffer, a map mode other than WRITE_DISCARD and
WRITE_NO_OVERWRITE, and a resource observed in use: with DO_NOT_WAIT set
and honored by configuration, the call returns WAS_STILL_DRAWING without
blocking (zero wait iterations) and with no effect on the buffer and no
emitted command beyond an implicit flush; with DO_NOT_WAIT absent, the
call flushes, blocks exactly until the first check at which is_in_use()
is false, and then succeeds with the current mapped slice. -/
theorem c3_doNotWait (b : D3D11BufferModel) (mapType : D3D11MapType)
    (inUse : ℕ → Bool) (fuel : ℕ)
    (hmode : b.mapMode ≠ .modeNone)
    (hmt1 : mapType ≠ .writeDiscard) (hmt2 : mapType ≠ .writeNoOverwrite)
    (hbusy : inUse 0 = true) :
    (mapBuffer b mapType true true inUse fuel =
        some (DXGI_ERROR_WAS_STILL_DRAWING, none, b, [], ⟨true, false, 0⟩)) ∧
    (∀ t, waitIdleLoop inUse 1 fuel = some t →
      (inUse t = false ∧ ∀ u, 1 ≤ u → u < t → inUse u = true) ∧
      ∀ anw : Bool, mapBuffer b mapType anw false inUse fuel =
        some (S_OK, some ⟨(getMappedSlice b).mapPtr, b.byteWidth, b.byteWidth⟩,
          b, [], ⟨false, true, t⟩)) := by
  constructor
  · have hw : waitForResource true true inUse fuel = some (false, ⟨true, false, 0⟩) := by
      unfold waitForResource
      simp [hbusy]
    unfold mapBuffer
    simp [hmode, hmt1, hmt2, hw]
  · intro t ht
    obtain ⟨h1, h2, h3⟩ := waitIdleLoop_spec inUse fuel 1 t ht
    refine ⟨⟨h1, h3⟩, ?_⟩
    intro anw
    have hw : waitForResource anw false inUse fuel = some (true, ⟨false, true, t⟩) := by
      unfold waitForResource
      simp [hbusy, ht]
    unfold mapBuffer
    simp [hmode, hmt1, hmt2, hw]

/-- Witness for c3_doNotWait: a write map of the example buffer while it
is in use for the first check only. -/
theorem c3_witness :
    (mapBuffer exampleBuffer .write true true (fun n => n == 0) 3 =
        some (DXGI_ERROR_WAS_STILL_DRAWING, none, exampleBuffer, [], ⟨true, false, 0⟩)) ∧
    mapBuffer exampleBuffer .write true false (fun n => n == 0) 3 =
        some (S_OK, some ⟨100, 16, 16⟩, exampleBuffer, [], ⟨false, true, 1⟩) :=
  ⟨(c3_doNotWait exampleBuffer .write (fun n => n == 0) 3 (by decide) (by decide)
      (by decide) (by decide)).1,
   (((c3_doNotWait exampleBuffer .write (fun n => n == 0) 3 (by decide) (by decide)
      (by decide) (by decide)).2 1 (by decide)).2 true)⟩

/-- C8: a change of the primary render target recomputes the
ValidSampleMask flag as (MultiSample of the new surface > NONMASKABLE);
binding multisample state with the flag unset forces sample mask
0xFFFFFFFF regardless of the MULTISAMPLEMASK render state, and with the
flag set uses the MULTISAMPLEMASK render state (id 162). -/
theorem c8_validSampleMask (st : D3D9StateModel) (s : ℕ)
    (surfMs surfW surfH : ℕ → ℕ)
    (hchange : st.renderTargets 0 ≠ some s) :
    ((setRenderTarget st 0 (some s) surfMs surfW surfH).1.flags.validSampleMask
        = decide (D3DMULTISAMPLE_NONMASKABLE < surfMs s)) ∧
    (∀ (st2 : D3D9StateModel) (atoc : Bool),
      st2.flags.validSampleMask = false →
      (bindMultiSampleState st2 atoc).1.sampleMask = 0xffffffff) ∧
    (∀ (st2 : D3D9StateModel) (atoc : Bool),
      st2.flags.validSampleMask = true →
      (bindMultiSampleState st2 atoc).1.sampleMask = st2.renderStates 162) := by
  refine ⟨?_, ?_, ?_⟩
  · by_cases hv : decide (D3DMULTISAMPLE_NONMASKABLE < surfMs s) = st.flags.validSampleMask
    · simp [setRenderTarget, MaxSimultaneousRenderTargets, hchange, hv]
    · simp [setRenderTarget, MaxSimultaneousRenderTargets, hchange, hv]
  · intro st2 atoc h
    simp [bindMultiSampleState, h]
  · intro st2 atoc h
    simp [bindMultiSampleState, h]

/-- Witness for c8_validSampleMask: binding a 4-sample surface as primary
render target of the default state sets the flag; the two bind branches
are exercised on states with the flag clear and set. -/
theorem c8_witness :
    ((setRenderTarget d3d9DefaultState 0 (some 5) (fun _ => 4) (fun _ => 640)
        (fun _ => 480)).1.flags.validSampleMask = true) ∧
    (bindMultiSampleState d3d9DefaultState false).1.sampleMask = 0xffffffff :=
  ⟨(c8_validSampleMask d3d9DefaultState 5 (fun _ => 4) (fun _ => 640) (fun _ => 480)
      (by decide)).1,
   (c8_validSampleMask d3d9DefaultState 5 (fun _ => 4) (fun _ => 640) (fun _ => 480)
      (by decide)).2.1 d3d9DefaultState false rfl⟩

/-- C7 counterexample: id 210 is in the range SetRenderState accepts and
stores (0 or 7..255), but GetRenderState forces ids outside 7..209 to read
as zero, so the round-trip Set(210, 5); Get(210) returns 0, not 5. -/
theorem c7_counterexample :
    getRenderState (setRenderState d3d9DefaultState (fun _ => false) 210 5).1 210
      = (some 0, S_OK) ∧
    setRenderState d3d9DefaultState (fun _ => false) 210 5 ≠
      (d3d9DefaultState, S_OK) ∧
    (some (0 : ℕ)) ≠ some 5 := by
  refine ⟨rfl, ?_, by decide⟩
  intro h
  have hval : (setRenderState d3d9DefaultState (fun _ => false) 210 5).1.renderStates 210
      = 5 := rfl
  have h2 := congrArg (fun p => p.1.renderStates 210) h
  dsimp only at h2
  rw [hval] at h2
  exact absurd h2 (by decide)

/-- C7 (amended): the Set/Get round-trip holds exactly on the ids that
GetRenderState actually reads back, 7..209, and for values that do not hit
the POINTSIZE (A2M1/A2M0/RESZ) or ADAPTIVETESS_Y (ATOC/0) driver hacks;
those hacks and the readable-but-forced-to-zero ids (0 and 210..255) break
the general round-trip. Out-of-range ids (above 255 or in 1..6) are
no-ops that still return D3D_OK, as the claim states. -/
theorem c7_amended (st : D3D9StateModel) (atoc : D3D9StateModel → Bool) (k v : ℕ) :
    (7 ≤ k → k ≤ 209 →
      ¬(k = 154 ∧ (v = 0x314D3241 ∨ v = 0x304D3241 ∨ v = 0x7fa05000)) →
      ¬(k = 181 ∧ (v = 0x434F5441 ∨ v = 0)) →
      getRenderState (setRenderState st atoc k v).1 k = (some v, S_OK)) ∧
    ((255 < k ∨ (k < 7 ∧ k ≠ 0)) → setRenderState st atoc k v = (st, S_OK)) := by
  constructor
  · intro h7 h209 hnp hna
    have hrange : ¬(255 < k ∨ (k < 7 ∧ k ≠ 0)) := by omega
    have hget : ¬(k < 7 ∨ 209 < k) := by omega
    by_cases hch : st.renderStates k = v
    · have hset : setRenderState st atoc k v = (st, S_OK) := by
        unfold setRenderState
        rw [if_neg hrange, if_pos hch]
      rw [hset]
      unfold getRenderState
      rw [if_neg hrange, if_neg hget, hch]
    · have hh1 : ¬(k = 154 ∧ (v = 0x314D3241 ∨ v = 0x304D3241)) := by tauto
      have hh2 : ¬(k = 154 ∧ v = 0x7fa05000) := by tauto
      have hset : (setRenderState st atoc k v).1.renderStates =
          Function.update st.renderStates k v := by
        unfold setRenderState
        simp only [if_neg hrange, if_neg hch, if_neg hh1, if_neg hh2, if_neg hna]
      unfold getRenderState
      rw [if_neg hrange, if_neg hget, hset, Function.update_same]
  · intro hr
    unfold setRenderState
    rw [if_pos hr]

/-- Witness for c7_amended: the round-trip at id 7 (ZENABLE) with value 1,
and the out-of-range no-op at id 300. -/
theorem c7_witness :
    getRenderState (setRenderState d3d9DefaultState (fun _ => false) 7 1).1 7
      = (some 1, S_OK) ∧
    setRenderState d3d9DefaultState (fun _ => false) 300 5 = (d3d9DefaultState, S_OK) :=
  ⟨(c7_amended d3d9DefaultState (fun _ => false) 7 1).1 (by decide) (by decide)
      (by decide) (by decide),
   (c7_amended d3d9DefaultState (fun _ => false) 300 5).2 (by decide)⟩

/-- If the chunk walk fails, every chunk in the list rejects the request. -/
theorem walkChunks_none_spec (flags size align prio : ℕ) :
    ∀ l, walkChunks flags size align prio l = none →
      ∀ c ∈ l, chunkAlloc c flags size align prio = none := by
  intro l
  induction l with
  | nil => intro _ c hc; cases hc
  | cons a rest ih =>
    intro h c hc
    simp only [walkChunks] at h
    rcases ha : chunkAlloc a flags size align prio with _ | ⟨m2, c2⟩
    · rw [ha] at h
      rcases hw : walkChunks flags size align prio rest with _ | ⟨⟨i2, m3, rest2⟩⟩
      · cases hc with
        | head => exact ha
        | tail _ hc => exact ih hw c hc
      · rw [hw] at h
        exact absurd h (by simp)
    · rw [ha] at h
      exact absurd h (by simp)

/-- If the chunk walk succeeds at index i, chunk i satisfied the request
and every earlier chunk rejected it. -/
theorem walkChunks_some_spec (flags size align prio : ℕ) :
    ∀ l i m l2, walkChunks flags size align prio l = some (i, m, l2) →
      ∃ c c2, l[i]? = some c ∧ chunkAlloc c flags size align prio = some (m, c2) ∧
        ∀ j, j < i → ∀ cj, l[j]? = some cj →
          chunkAlloc cj flags size align prio = none := by
  intro l
  induction l with
  | nil => intro i m l2 h; simp [walkChunks] at h
  | cons a rest ih =>
    intro i m l2 h
    simp only [walkChunks] at h
    rcases ha : chunkAlloc a flags size align prio with _ | ⟨m2, c2⟩
    · rw [ha] at h
      rcases hw : walkChunks flags size align prio rest with _ | ⟨⟨i2, m3, rest2⟩⟩
      · rw [hw] at h
        exact absurd h (by simp)
      · rw [hw] at h
        have hp := Option.some.inj h
        have hi : i = i2 + 1 := (congrArg Prod.fst hp).symm
        have hm : m = m3 := (congrArg (fun p => p.2.1) hp).symm
        subst hi
        subst hm
        obtain ⟨c, cnext, hc, hca, hprev⟩ := ih i2 m rest2 hw
        refine ⟨c, cnext, by simpa using hc, hca, ?_⟩
        intro j hj cj hcj
        cases j with
        | zero =>
          obtain rfl : a = cj := by simpa using hcj
          exact ha
        | succ j2 =>
          exact hprev j2 (by omega) cj (by simpa using hcj)
    · rw [ha] at h
      have hp := Option.some.inj h
      have hi : i = 0 := (congrArg Prod.fst hp).symm
      have hm : m = m2 := (congrArg (fun p => p.2.1) hp).symm
      subst hi
      subst hm
      exact ⟨a, c2, by simp, ha, fun j hj => absurd hj (Nat.not_lt_zero j)⟩

/-- C4 counterexample: a request of exactly one quarter of the chunk size
(1 byte with a 4-byte chunk) does not exceed a quarter of the chunk size,
yet the allocator takes the dedicated-allocation path instead of walking
the chunks: the source condition is size >= chunkSize / 4, not strict. -/
theorem c4_counterexample :
    tryAllocFromType [] 4 1 1 1 0 false (fun _ => true) = (.dedicated 1, []) ∧
    ¬(4 / 4 < 1) ∧ (false : Bool) ≠ true := by
  refine ⟨by decide, by decide, by decide⟩

/-- C4 (amended): the allocator bypasses chunk sub-allocation and requests
a dedicated device-memory allocation exactly when the requested size is at
least (not strictly more than) a quarter of the chunk size or a dedicated
hint is present; otherwise it walks the existing chunks in order, and only
when every one of them fails does it create a new chunk of the type's
default chunk size and carve the allocation from it, appending the new
chunk to the list. -/
theorem c4_amended (chunks : List MemoryChunk) (chunkSize flags size align priority : ℕ)
    (hasDed : Bool) (devMemOk : ℕ → Bool) :
    ((∃ s, (tryAllocFromType chunks chunkSize flags size align priority hasDed devMemOk).1
        = .dedicated s) ↔
      ((chunkSize / 4 ≤ size ∨ hasDed = true) ∧ devMemOk size = true)) ∧
    (¬(chunkSize / 4 ≤ size ∨ hasDed = true) →
      (∀ i m, (tryAllocFromType chunks chunkSize flags size align priority hasDed devMemOk).1
          = .fromChunk i m →
        ∃ c c2, chunks[i]? = some c ∧
          chunkAlloc c flags size align (allocPriority flags priority) = some (m, c2) ∧
          ∀ j, j < i → ∀ cj, chunks[j]? = some cj →
            chunkAlloc cj flags size align (allocPriority flags priority) = none) ∧
      (∀ m, (tryAllocFromType chunks chunkSize flags size align priority hasDed devMemOk).1
          = .fromNewChunk m →
        (∀ cj ∈ chunks, chunkAlloc cj flags size align (allocPriority flags priority) = none) ∧
        devMemOk chunkSize = true ∧
        ∃ c2, chunkAlloc ⟨flags, allocPriority flags priority, chunkSize, [⟨0, chunkSize⟩]⟩
            flags size align (allocPriority flags priority) = some (m, c2) ∧
          (tryAllocFromType chunks chunkSize flags size align priority hasDed devMemOk).2
            = chunks ++ [c2])) := by
  by_cases hcond : chunkSize / 4 ≤ size ∨ hasDed = true
  · refine ⟨?_, fun hn => absurd hcond hn⟩
    by_cases hdm : devMemOk size = true
    · have hres : tryAllocFromType chunks chunkSize flags size align priority hasDed devMemOk
          = (.dedicated size, chunks) := by
        simp only [tryAllocFromType, if_pos hcond, hdm, if_true]
      rw [hres]
      simp only [AllocResult.dedicated.injEq]
      constructor
      · intro _; exact ⟨hcond, hdm⟩
      · intro _; exact ⟨size, rfl⟩
    · have hres : tryAllocFromType chunks chunkSize flags size align priority hasDed devMemOk
          = (.fail, chunks) := by
        simp only [tryAllocFromType, if_pos hcond, Bool.not_eq_true] at hdm ⊢
        simp [hdm]
      rw [hres]
      constructor
      · rintro ⟨s, hs⟩; cases hs
      · rintro ⟨_, hd⟩; exact absurd hd hdm
  · refine ⟨?_, fun _ => ?_⟩
    · constructor
      · rintro ⟨s, hs⟩
        rcases hw : walkChunks flags size align (allocPriority flags priority) chunks
          with _ | ⟨⟨i0, m0, cs0⟩⟩
        · by_cases hdm : devMemOk chunkSize = true
          · rcases hna : chunkAlloc
                ⟨flags, allocPriority flags priority, chunkSize, [⟨0, chunkSize⟩]⟩
                flags size align (allocPriority flags priority) with _ | ⟨⟨m2, c2⟩⟩
            · rw [show (tryAllocFromType chunks chunkSize flags size align priority hasDed
                  devMemOk).1 = .fail by
                simp only [tryAllocFromType, if_neg hcond, hw, hdm, if_true, hna]] at hs
              cases hs
            · rw [show (tryAllocFromType chunks chunkSize flags size align priority hasDed
                  devMemOk).1 = .fromNewChunk m2 by
                simp only [tryAllocFromType, if_neg hcond, hw, hdm, if_true, hna]] at hs
              cases hs
          · rw [show (tryAllocFromType chunks chunkSize flags size align priority hasDed
                devMemOk).1 = .fail by
              simp only [tryAllocFromType, if_neg hcond, hw, Bool.not_eq_true] at hdm ⊢
              simp [hdm]] at hs
            cases hs
        · rw [show (tryAllocFromType chunks chunkSize flags size align priority hasDed
              devMemOk).1 = .fromChunk i0 m0 by
            simp only [tryAllocFromType, if_neg hcond, hw]] at hs
          cases hs
      · rintro ⟨hc, _⟩; exact absurd hc hcond
    · rcases hw : walkChunks flags size align (allocPriority flags priority) chunks
        with _ | ⟨⟨i0, m0, cs0⟩⟩
      · constructor
        · intro i m heq
          by_cases hdm : devMemOk chunkSize = true
          · rcases hna : chunkAlloc
                ⟨flags, allocPriority flags priority, chunkSize, [⟨0, chunkSize⟩]⟩
                flags size align (allocPriority flags priority) with _ | ⟨⟨m2, c2⟩⟩
            · rw [show (tryAllocFromType chunks chunkSize flags size align priority hasDed
                  devMemOk).1 = .fail by
                simp only [tryAllocFromType, if_neg hcond, hw, hdm, if_true, hna]] at heq
              cases heq
            · rw [show (tryAllocFromType chunks chunkSize flags size align priority hasDed
                  devMemOk).1 = .fromNewChunk m2 by
                simp only [tryAllocFromType, if_neg hcond, hw, hdm, if_true, hna]] at heq
              cases heq
          · rw [show (tryAllocFromType chunks chunkSize flags size align priority hasDed
                devMemOk).1 = .fail by
              simp only [tryAllocFromType, if_neg hcond, hw, Bool.not_eq_true] at hdm ⊢
              simp [hdm]] at heq
            cases heq
        · intro m heq
          by_cases hdm : devMemOk chunkSize = true
          · rcases hna : chunkAlloc
                ⟨flags, allocPriority flags priority, chunkSize, [⟨0, chunkSize⟩]⟩
                flags size align (allocPriority flags priority) with _ | ⟨⟨m2, c2⟩⟩
            · rw [show (tryAllocFromType chunks chunkSize flags size align priority hasDed
                  devMemOk).1 = .fail by
                simp only [tryAllocFromType, if_neg hcond, hw, hdm, if_true, hna]] at heq
              cases heq
            · rw [show (tryAllocFromType chunks chunkSize flags size align priority hasDed
                  devMemOk).1 = .fromNewChunk m2 by
                simp only [tryAllocFromType, if_neg hcond, hw, hdm, if_true, hna]] at heq
              obtain rfl : m2 = m := by injection heq
              refine ⟨walkChunks_none_spec flags size align (allocPriority flags priority)
                chunks hw, hdm, c2, ?_, ?_⟩
              · rfl
              simp only [tryAllocFromType, if_neg hcond, hw, hdm, if_true, hna]
          · rw [show (tryAllocFromType chunks chunkSize flags size align priority hasDed
                devMemOk).1 = .fail by
              simp only [tryAllocFromType, if_neg hcond, hw, Bool.not_eq_true] at hdm ⊢
              simp [hdm]] at heq
            cases heq
      · constructor
        · intro i m heq
          rw [show (tryAllocFromType chunks chunkSize flags size align priority hasDed
              devMemOk).1 = .fromChunk i0 m0 by
            simp only [tryAllocFromType, if_neg hcond, hw]] at heq
          have hi : i0 = i := by injection heq with h1 h2
          have hm : m0 = m := by injection heq with h1 h2
          subst hi
          subst hm
          exact walkChunks_some_spec flags size align (allocPriority flags priority)
            chunks i0 m0 cs0 hw
        · intro m heq
          rw [show (tryAllocFromType chunks chunkSize flags size align priority hasDed
              devMemOk).1 = .fromChunk i0 m0 by
            simp only [tryAllocFromType, if_neg hcond, hw]] at heq
          cases heq

/-- Witness for c4_amended: a 1-byte request against a 16-byte chunk size
with no existing chunks creates a new chunk of the default chunk size and
carves the allocation from it. -/
theorem c4_witness :
    ¬((16 : ℕ) / 4 ≤ 1 ∨ (false : Bool) = true) ∧
    ((∀ cj ∈ ([] : List MemoryChunk), chunkAlloc cj 1 1 1 (allocPriority 1 0) = none) ∧
     (fun _ => true : ℕ → Bool) 16 = true ∧
     ∃ c2, chunkAlloc ⟨1, allocPriority 1 0, 16, [⟨0, 16⟩]⟩ 1 1 1 (allocPriority 1 0)
         = some (⟨0, 1⟩, c2) ∧
       (tryAllocFromType [] 16 1 1 1 0 false (fun _ => true)).2 = [] ++ [c2]) :=
  ⟨by decide,
   ((c4_amended [] 16 1 1 1 0 false (fun _ => true)).2 (by decide)).2 ⟨0, 1⟩ (by decide)⟩

/-- Slice separation is symmetric. -/
theorem sliceSep_symm (s t : FreeSlice) (h : sliceSep s t) : sliceSep t s := by
  unfold sliceSep at h ⊢
  omega

/-- Upward alignment never decreases a value. -/
theorem le_alignUp (n a : ℕ) : n ≤ alignUp n a := by
  unfold alignUp
  split
  · exact le_refl n
  · rename_i ha
    have hpos : 0 < a := Nat.pos_of_ne_zero ha
    have hdm := Nat.div_add_mod (n + a - 1) a
    have hmod : (n + a - 1) % a < a := Nat.mod_lt _ hpos
    rw [Nat.mul_comm]
    generalize hq : a * ((n + a - 1) / a) = q at hdm
    omega

/-- Free-byte totals add over list append. -/
theorem sumLen_append (a b : List FreeSlice) : sumLen (a ++ b) = sumLen a + sumLen b := by
  simp [sumLen]

/-- Free-byte total of a one-slice list. -/
theorem sumLen_singleton (s : FreeSlice) : sumLen [s] = s.length := by
  simp [sumLen]

/-- Removing the slice at a valid index removes exactly its length from
the free-byte total. -/
theorem sumLen_eraseIdx (l : List FreeSlice) :
    ∀ (i : ℕ) (s : FreeSlice), l[i]? = some s →
      sumLen (l.eraseIdx i) + s.length = sumLen l := by
  induction l with
  | nil => intro i s h; simp at h
  | cons a rest ih =>
    intro i s h
    cases i with
    | zero =>
      obtain rfl : a = s := by simpa using h
      simp [sumLen, Nat.add_comm]
    | succ j =>
      have hj : rest[j]? = some s := by simpa using h
      have := ih j s hj
      simp only [List.eraseIdx_cons_succ, sumLen, List.map_cons, List.sum_cons] at this ⊢
      omega

/-- The merge loop of free preserves the total: the final length plus the
kept slices' total equals the freed length plus the original total. -/
theorem freeMergeLoop_sum (L : List FreeSlice) :
    ∀ o l, (freeMergeLoop o l L).2.1 + sumLen (freeMergeLoop o l L).2.2
      = l + sumLen L := by
  induction L with
  | nil => intro o l; simp [freeMergeLoop, sumLen]
  | cons s rest ih =>
    intro o l
    simp only [freeMergeLoop]
    split
    · have := ih o (l + s.length)
      simp only [sumLen, List.map_cons, List.sum_cons] at this ⊢
      omega
    · split
      · have := ih (o - s.length) (l + s.length)
        simp only [sumLen, List.map_cons, List.sum_cons] at this ⊢
        omega
      · have := ih o l
        simp only [sumLen, List.map_cons, List.sum_cons] at this ⊢
        omega

/-- Every slice remaining after eraseIdx is separated from the erased one,
in a pairwise-separated list. -/
theorem pairwise_eraseIdx_sep (l : List FreeSlice) (i : ℕ) (x : FreeSlice)
    (hx : l[i]? = some x) (hp : l.Pairwise sliceSep) :
    ∀ s ∈ l.eraseIdx i, sliceSep s x := by
  have hi : i < l.length := by
    by_contra hge
    rw [List.getElem?_eq_none (by omega)] at hx
    cases hx
  have hgx : l[i] = x := by
    have := List.getElem?_eq_getElem hi
    rw [this] at hx
    exact Option.some.inj hx
  rw [List.eraseIdx_eq_take_drop_succ]
  intro s hs
  have hsplit : l.take i ++ l.drop i = l := List.take_append_drop i l
  have hpw2 : (l.take i ++ l.drop i).Pairwise sliceSep := by rw [hsplit]; exact hp
  rw [List.pairwise_append] at hpw2
  have hdrop : l.drop i = x :: l.drop (i + 1) := by
    rw [List.drop_eq_getElem_cons hi, hgx]
  rcases List.mem_append.mp hs with h1 | h2
  · exact hpw2.2.2 s h1 x (by rw [hdrop]; exact List.mem_cons_self _ _)
  · have hpd := hpw2.2.1
    rw [hdrop] at hpd
    exact sliceSep_symm _ _ ((List.pairwise_cons.mp hpd).1 s h2)

/-- The selection loop returns either its running best index or the index
of one of the scanned elements. -/
theorem pickBestAux_cases (size : ℕ) :
    ∀ (l : List FreeSlice) (i b bl : ℕ),
      pickBestAux size l i b bl = b ∨
        ∃ j, j < l.length ∧ pickBestAux size l i b bl = i + j := by
  intro l
  induction l with
  | nil => intro i b bl; exact Or.inl rfl
  | cons s rest ih =>
    intro i b bl
    simp only [pickBestAux]
    split
    · exact Or.inr ⟨0, by simp, by omega⟩
    · split
      · rcases ih (i + 1) i s.length with h | ⟨j, hj, hv⟩
        · exact Or.inr ⟨0, by simp, by omega⟩
        · exact Or.inr ⟨j + 1, by simpa using hj, by omega⟩
      · rcases ih (i + 1) b bl with h | ⟨j, hj, hv⟩
        · exact Or.inl h
        · exact Or.inr ⟨j + 1, by simpa using hj, by omega⟩

/-- The index picked from a non-empty free list is in bounds. -/
theorem pickBest_lt (size : ℕ) (l : List FreeSlice) (h : l ≠ []) :
    pickBest size l < l.length := by
  cases l with
  | nil => exact absurd rfl h
  | cons s rest =>
    show pickBestAux size (s :: rest) 0 0 s.length < (s :: rest).length
    rcases pickBestAux_cases size (s :: rest) 0 0 s.length with hb | ⟨j, hj, hv⟩
    · rw [hb]; simp
    · rw [hv]; simpa using hj

/-- Anatomy of a successful chunk allocation from a well-formed free list
(for a positive request size): the free-byte total drops by exactly the
allocation's length, the allocation is non-empty, and the new free list is
again well formed with every slice disjoint from the allocated range. -/
theorem chunkAlloc_spec (c : MemoryChunk) (flags size align priority : ℕ)
    (m : ChunkMemory) (c2 : MemoryChunk)
    (h : chunkAlloc c flags size align priority = some (m, c2))
    (hsize : 0 < size) (hwf : wfFreeList c.freeList) :
    sumLen c.freeList = sumLen c2.freeList + m.length ∧
    0 < m.length ∧
    (∀ s ∈ c2.freeList, 0 < s.length) ∧
    c2.freeList.Pairwise sliceSep ∧
    (∀ s ∈ c2.freeList, s.offset + s.length ≤ m.offset ∨ m.offset + m.length ≤ s.offset) := by
  unfold chunkAlloc at h
  split at h
  · exact absurd h (by simp)
  split at h
  · exact absurd h (by simp)
  simp only [] at h
  rcases hb : c.freeList[pickBest size c.freeList]? with _ | best
  · rw [hb] at h
    exact absurd h (by simp)
  rw [hb] at h
  simp only [] at h
  set as := alignUp best.offset align with has
  set ae := alignUp (as + size) align with hae
  split at h
  · exact absurd h (by simp)
  rename_i hle
  have hp := Option.some.inj h
  have hm : m = ⟨as, ae - as⟩ := (congrArg Prod.fst hp).symm
  have hc2l : c2.freeList =
      (if as ≠ best.offset
        then c.freeList.eraseIdx (pickBest size c.freeList) ++
          [⟨best.offset, as - best.offset⟩]
        else c.freeList.eraseIdx (pickBest size c.freeList)) ++
      (if ae ≠ best.offset + best.length
        then [⟨ae, best.offset + best.length - ae⟩] else []) := by
    have hl3 := congrArg (fun p : ChunkMemory × MemoryChunk => p.2.freeList) hp
    dsimp only at hl3
    rw [← hl3]
    split <;> split <;> simp
  have h1 : best.offset ≤ as := by rw [has]; exact le_alignUp _ _
  have h2 : as + size ≤ ae := by rw [hae]; exact le_alignUp _ _
  have h3 : ae ≤ best.offset + best.length := by omega
  subst hm
  have hsum0 := sumLen_eraseIdx c.freeList (pickBest size c.freeList) best hb
  have hsepb := pairwise_eraseIdx_sep c.freeList (pickBest size c.freeList) best hb hwf.2
  have hsub : ∀ s ∈ c.freeList.eraseIdx (pickBest size c.freeList), s ∈ c.freeList := by
    intro s hs
    rw [List.eraseIdx_eq_take_drop_succ] at hs
    rcases List.mem_append.mp hs with hh | hh
    · exact List.mem_of_mem_take hh
    · exact List.mem_of_mem_drop hh
  have hpos1 : ∀ s ∈ c.freeList.eraseIdx (pickBest size c.freeList), 0 < s.length :=
    fun s hs => hwf.1 s (hsub s hs)
  have hpw1 : (c.freeList.eraseIdx (pickBest size c.freeList)).Pairwise sliceSep :=
    hwf.2.sublist (List.eraseIdx_sublist _ _)
  have hbestpos : 0 < best.length := by
    have hblt : pickBest size c.freeList < c.freeList.length := by
      apply pickBest_lt
      intro hnil
      rw [hnil] at hb
      simp at hb
    have : best ∈ c.freeList := by
      have hg : c.freeList[pickBest size c.freeList] = best := by
        have := List.getElem?_eq_getElem hblt
        rw [this] at hb
        exact Option.some.inj hb
      rw [← hg]
      exact List.getElem_mem hblt
    exact hwf.1 best this
  have hF1 : ∀ s ∈ c.freeList.eraseIdx (pickBest size c.freeList),
      sliceSep s ⟨best.offset, as - best.offset⟩ := by
    intro s hs
    have := hsepb s hs
    simp only [sliceSep] at this ⊢
    omega
  have hF2 : ∀ s ∈ c.freeList.eraseIdx (pickBest size c.freeList),
      sliceSep s ⟨ae, best.offset + best.length - ae⟩ := by
    intro s hs
    have := hsepb s hs
    simp only [sliceSep] at this ⊢
    omega
  have hF3 : sliceSep ⟨best.offset, as - best.offset⟩ ⟨ae, best.offset + best.length - ae⟩ := by
    simp only [sliceSep]
    omega
  have hd1 : ∀ s ∈ c.freeList.eraseIdx (pickBest size c.freeList),
      s.offset + s.length ≤ as ∨ ae ≤ s.offset := by
    intro s hs
    have := hsepb s hs
    simp only [sliceSep] at this
    omega
  rw [hc2l]
  split <;> split
  all_goals rename_i hne1 hne2
  -- case: head remainder pushed, tail remainder pushed
  · refine ⟨?_, by simp only []; omega, ?_, ?_, ?_⟩
    · rw [sumLen_append, sumLen_append, sumLen_singleton, sumLen_singleton]
      simp only []
      omega
    · intro s hs
      rcases List.mem_append.mp hs with hs1 | hs2
      · rcases List.mem_append.mp hs1 with hs3 | hs4
        · exact hpos1 s hs3
        · obtain rfl : s = (⟨best.offset, as - best.offset⟩ : FreeSlice) := by simpa using hs4
          simp only []
          omega
      · obtain rfl : s = (⟨ae, best.offset + best.length - ae⟩ : FreeSlice) := by simpa using hs2
        simp only []
        omega
    · rw [List.pairwise_append]
      refine ⟨?_, List.pairwise_singleton _ _, ?_⟩
      · rw [List.pairwise_append]
        refine ⟨hpw1, List.pairwise_singleton _ _, ?_⟩
        intro a ha b hbm
        obtain rfl : b = (⟨best.offset, as - best.offset⟩ : FreeSlice) := by simpa using hbm
        exact hF1 a ha
      · intro a ha b hbm
        obtain rfl : b = (⟨ae, best.offset + best.length - ae⟩ : FreeSlice) := by simpa using hbm
        rcases List.mem_append.mp ha with ha1 | ha2
        · exact hF2 a ha1
        · obtain rfl : a = (⟨best.offset, as - best.offset⟩ : FreeSlice) := by simpa using ha2
          exact hF3
    · intro s hs
      simp only []
      rcases List.mem_append.mp hs with hs1 | hs2
      · rcases List.mem_append.mp hs1 with hs3 | hs4
        · have := hd1 s hs3
          omega
        · obtain rfl : s = (⟨best.offset, as - best.offset⟩ : FreeSlice) := by simpa using hs4
          simp only []
          omega
      · obtain rfl : s = (⟨ae, best.offset + best.length - ae⟩ : FreeSlice) := by simpa using hs2
        simp only []
        omega
  -- case: head remainder pushed, no tail remainder
  · refine ⟨?_, by simp only []; omega, ?_, ?_, ?_⟩
    · rw [List.append_nil, sumLen_append, sumLen_singleton]
      simp only []
      omega
    · intro s hs
      rw [List.append_nil] at hs
      rcases List.mem_append.mp hs with hs3 | hs4
      · exact hpos1 s hs3
      · obtain rfl : s = (⟨best.offset, as - best.offset⟩ : FreeSlice) := by simpa using hs4
        simp only []
        omega
    · rw [List.append_nil, List.pairwise_append]
      refine ⟨hpw1, List.pairwise_singleton _ _, ?_⟩
      intro a ha b hbm
      obtain rfl : b = (⟨best.offset, as - best.offset⟩ : FreeSlice) := by simpa using hbm
      exact hF1 a ha
    · intro s hs
      rw [List.append_nil] at hs
      simp only []
      rcases List.mem_append.mp hs with hs3 | hs4
      · have := hd1 s hs3
        omega
      · obtain rfl : s = (⟨best.offset, as - best.offset⟩ : FreeSlice) := by simpa using hs4
        simp only []
        omega
  -- case: no head remainder, tail remainder pushed
  · refine ⟨?_, by simp only []; omega, ?_, ?_, ?_⟩
    · rw [sumLen_append, sumLen_singleton]
      simp only []
      omega
    · intro s hs
      rcases List.mem_append.mp hs with hs3 | hs4
      · exact hpos1 s hs3
      · obtain rfl : s = (⟨ae, best.offset + best.length - ae⟩ : FreeSlice) := by simpa using hs4
        simp only []
        omega
    · rw [List.pairwise_append]
      refine ⟨hpw1, List.pairwise_singleton _ _, ?_⟩
      intro a ha b hbm
      obtain rfl : b = (⟨ae, best.offset + best.length - ae⟩ : FreeSlice) := by simpa using hbm
      exact hF2 a ha
    · intro s hs
      simp only []
      rcases List.mem_append.mp hs with hs3 | hs4
      · have := hd1 s hs3
        omega
      · obtain rfl : s = (⟨ae, best.offset + best.length - ae⟩ : FreeSlice) := by simpa using hs4
        simp only []
        omega
  -- case: exact fit, no remainders
  · refine ⟨?_, by simp only []; omega, ?_, ?_, ?_⟩
    · rw [List.append_nil]
      simp only []
      omega
    · intro s hs
      rw [List.append_nil] at hs
      exact hpos1 s hs
    · rw [List.append_nil]
      exact hpw1
    · intro s hs
      rw [List.append_nil] at hs
      simp only []
      have := hd1 s hs
      omega

/-- Invariant preservation by the free-merge pass: freeing a non-empty
range that is disjoint from a well-formed free list yields a well-formed
free list again, and any element separated from the freed range and from
the whole list stays separated from every slice of the result. -/
theorem freeMergeLoop_wf (L : List FreeSlice) :
    ∀ (o l : ℕ), 0 < l →
      (∀ s ∈ L, 0 < s.length) → L.Pairwise sliceSep →
      (∀ s ∈ L, s.offset + s.length ≤ o ∨ o + l ≤ s.offset) →
      (∀ u ∈ mergedFreeList o l L, 0 < u.length) ∧
      (mergedFreeList o l L).Pairwise sliceSep ∧
      (∀ t, 0 < t.length → (t.offset + t.length < o ∨ o + l < t.offset) →
        (∀ s ∈ L, sliceSep t s) →
        ∀ u ∈ mergedFreeList o l L, sliceSep t u) := by
  induction L with
  | nil =>
    intro o l hl hpos hpw hdisj
    refine ⟨?_, ?_, ?_⟩
    · intro u hu
      obtain rfl : u = ⟨o, l⟩ := by simpa [mergedFreeList, freeMergeLoop] using hu
      exact hl
    · simp only [mergedFreeList, freeMergeLoop, List.nil_append]
      exact List.pairwise_singleton _ _
    · intro t ht hsep hts u hu
      obtain rfl : u = ⟨o, l⟩ := by simpa [mergedFreeList, freeMergeLoop] using hu
      simp only [sliceSep]
      omega
  | cons s rest ih =>
    intro o l hl hpos hpw hdisj
    have hspos : 0 < s.length := hpos s (List.mem_cons_self _ _)
    have hrpos : ∀ x ∈ rest, 0 < x.length := fun x hx => hpos x (List.mem_cons_of_mem _ hx)
    have hpwr : rest.Pairwise sliceSep := (List.pairwise_cons.mp hpw).2
    have hsrel : ∀ x ∈ rest, sliceSep s x := (List.pairwise_cons.mp hpw).1
    have hdisjr : ∀ x ∈ rest, x.offset + x.length ≤ o ∨ o + l ≤ x.offset :=
      fun x hx => hdisj x (List.mem_cons_of_mem _ hx)
    have hds := hdisj s (List.mem_cons_self _ _)
    by_cases h1 : s.offset = o + l
    · have hstep : mergedFreeList o l (s :: rest) = mergedFreeList o (l + s.length) rest := by
        simp [mergedFreeList, freeMergeLoop, h1]
      rw [hstep]
      have hdisj2 : ∀ x ∈ rest,
          x.offset + x.length ≤ o ∨ o + (l + s.length) ≤ x.offset := by
        intro x hx
        have hd := hdisjr x hx
        have hr := hsrel x hx
        have hxpos := hrpos x hx
        simp only [sliceSep] at hr
        omega
      obtain ⟨ha, hb, hc⟩ := ih o (l + s.length) (by omega) hrpos hpwr hdisj2
      refine ⟨ha, hb, ?_⟩
      intro t ht hsep hts u hu
      have htssep := hts s (List.mem_cons_self _ _)
      have hsep2 : t.offset + t.length < o ∨ o + (l + s.length) < t.offset := by
        simp only [sliceSep] at htssep
        omega
      exact hc t ht hsep2 (fun x hx => hts x (List.mem_cons_of_mem _ hx)) u hu
    · by_cases h2 : s.offset + s.length = o
      · have hstep : mergedFreeList o l (s :: rest)
            = mergedFreeList (o - s.length) (l + s.length) rest := by
          simp [mergedFreeList, freeMergeLoop, h1, h2]
        rw [hstep]
        have hdisj2 : ∀ x ∈ rest, x.offset + x.length ≤ o - s.length ∨
            (o - s.length) + (l + s.length) ≤ x.offset := by
          intro x hx
          have hd := hdisjr x hx
          have hr := hsrel x hx
          have hxpos := hrpos x hx
          simp only [sliceSep] at hr
          omega
        obtain ⟨ha, hb, hc⟩ := ih (o - s.length) (l + s.length) (by omega) hrpos hpwr hdisj2
        refine ⟨ha, hb, ?_⟩
        intro t ht hsep hts u hu
        have htssep := hts s (List.mem_cons_self _ _)
        have hsep2 : t.offset + t.length < o - s.length ∨
            (o - s.length) + (l + s.length) < t.offset := by
          simp only [sliceSep] at htssep
          omega
        exact hc t ht hsep2 (fun x hx => hts x (List.mem_cons_of_mem _ hx)) u hu
      · have hstep : mergedFreeList o l (s :: rest) = s :: mergedFreeList o l rest := by
          simp [mergedFreeList, freeMergeLoop, h1, h2]
        rw [hstep]
        obtain ⟨ha, hb, hc⟩ := ih o l hl hrpos hpwr hdisjr
        have hssep : s.offset + s.length < o ∨ o + l < s.offset := by omega
        refine ⟨?_, ?_, ?_⟩
        · intro u hu
          rcases List.mem_cons.mp hu with rfl | hu2
          · exact hspos
          · exact ha u hu2
        · rw [List.pairwise_cons]
          exact ⟨fun u hu => hc s hspos hssep hsrel u hu, hb⟩
        · intro t ht hsep hts u hu
          rcases List.mem_cons.mp hu with rfl | hu2
          · exact hts _ (List.mem_cons_self _ _)
          · exact hc t ht hsep (fun x hx => hts x (List.mem_cons_of_mem _ hx)) u hu2

/-- C5: for a well-formed chunk free list and a successful allocation of a
positive number of bytes, freeing that allocation restores the free-list
byte total to its pre-allocation value, and the resulting free list is
well formed: its slices are pairwise disjoint and no two of them are
adjacent, adjacent slices having been coalesced by free. -/
theorem c5_roundTrip (c : MemoryChunk) (flags size align priority : ℕ)
    (m : ChunkMemory) (c2 : MemoryChunk)
    (halloc : chunkAlloc c flags size align priority = some (m, c2))
    (hsize : 0 < size) (hwf : wfFreeList c.freeList) :
    sumLen (chunkFree c2 m.offset m.length).freeList = sumLen c.freeList ∧
    wfFreeList (chunkFree c2 m.offset m.length).freeList := by
  obtain ⟨hsum, hmpos, hpos2, hpw2, hdisj2⟩ :=
    chunkAlloc_spec c flags size align priority m c2 halloc hsize hwf
  have hfl : (chunkFree c2 m.offset m.length).freeList
      = mergedFreeList m.offset m.length c2.freeList := rfl
  constructor
  · rw [hfl]
    unfold mergedFreeList
    rw [sumLen_append, sumLen_singleton]
    simp only []
    have hms := freeMergeLoop_sum c2.freeList m.offset m.length
    omega
  · obtain ⟨ha, hb, _⟩ :=
      freeMergeLoop_wf c2.freeList m.offset m.length hmpos hpos2 hpw2 hdisj2
    rw [hfl]
    exact ⟨ha, hb⟩

/-- Witness for c5_roundTrip: a 24-byte allocation at alignment 8 from a
fresh 100-byte chunk, then freed; the free list returns to 100 free bytes
in a single coalesced slice. -/
theorem c5_witness :
    chunkAlloc ⟨0, 0, 100, [⟨0, 100⟩]⟩ 0 24 8 0
      = some (⟨0, 24⟩, ⟨0, 0, 100, [⟨24, 76⟩]⟩) ∧
    (0 : ℕ) < 24 ∧ wfFreeList [⟨0, 100⟩] ∧
    sumLen (chunkFree ⟨0, 0, 100, [⟨24, 76⟩]⟩ 0 24).freeList = sumLen [⟨0, 100⟩] ∧
    wfFreeList (chunkFree ⟨0, 0, 100, [⟨24, 76⟩]⟩ 0 24).freeList :=
  ⟨by decide, by decide, by decide,
   (c5_roundTrip ⟨0, 0, 100, [⟨0, 100⟩]⟩ 0 24 8 0 ⟨0, 24⟩ ⟨0, 0, 100, [⟨24, 76⟩]⟩
      (by decide) (by decide) (by decide)).1,
   (c5_roundTrip ⟨0, 0, 100, [⟨0, 100⟩]⟩ 0 24 8 0 ⟨0, 24⟩ ⟨0, 0, 100, [⟨24, 76⟩]⟩
      (by decide) (by decide) (by decide)).2⟩
